import Mathlib

/-!
Shallow embedding of `record.py` (erahhal/ipcam-recorder), an IP-camera
recording supervisor.  Pure string/list processing is translated directly;
the event-driven supervisor loop is modelled as a step function over an
explicit state and a list of delivered events; fallible code returns
`Except` (an `.error` models an uncaught Python exception escaping the
function).  External collaborators (df output, the ffmpeg subprocess, the
OS clock) enter as explicit parameters.
-/

/-! ### Config parsing (record.py, `main`, lines 193-206) -/

/-- The default whitespace set of Python `str.strip()` / `str.split()`:
space, tab, newline, carriage return, vertical tab, form feed. -/
def isPySpace (c : Char) : Bool :=
  c == ' ' || c == '\t' || c == '\n' || c == '\r' || c.toNat == 11 || c.toNat == 12

/-- Remove leading Python whitespace (the `lstrip` half of `str.strip()`). -/
def dropWs : List Char → List Char
  | [] => []
  | c :: t => if isPySpace c then dropWs t else c :: t

/-- Python `line.strip()`: drop leading whitespace, then trailing whitespace
(implemented by stripping the reversed remainder). -/
def stripL (l : List Char) : List Char :=
  (dropWs ((dropWs l).reverse)).reverse

/-- Worker loop of Python `str.split()` with no separator: `acc` holds the
current in-progress token in reverse. -/
def splitWsGo : List Char → List Char → List (List Char)
  | [], acc => if acc = [] then [] else [acc.reverse]
  | c :: t, acc =>
    if isPySpace c then
      if acc = [] then splitWsGo t [] else acc.reverse :: splitWsGo t []
    else splitWsGo t (c :: acc)

/-- Python `line.split()` (no argument): split on runs of whitespace,
discarding empty tokens. -/
def splitWs (l : List Char) : List (List Char) := splitWsGo l []

/-- Python dict assignment `cameras[name] = url` on an insertion-ordered
dict represented as an association list: overwrite in place if the key
exists (keeping its position), otherwise append at the end. -/
def dictInsert : List (String × String) → String → String → List (String × String)
  | [], n, u => [(n, u)]
  | (k, v) :: rest, n, u =>
    if k = n then (k, u) :: rest else (k, v) :: dictInsert rest n u

/-- The comment test of `main` (line 203): `len(line) and line[0] == '#'`,
applied to the already-stripped line. -/
def isCommentL (s : List Char) : Bool := s.head? == some '#'

/-- Python tuple unpack `name, url = line.split()`: succeeds iff the split
produced exactly two tokens, otherwise a `ValueError` is raised. -/
def parseTok : List (List Char) → Option (List Char × List Char)
  | [n, u] => some (n, u)
  | _ => none

/-- The config-reading loop of `main` (lines 196-206), one iteration per
line of `cameras.config` (lines are given without their trailing newline;
`readline` returning the empty string, i.e. EOF, ends the loop).
`.error ()` models an uncaught `ValueError` from the tuple unpack. -/
def parseLinesL : List (List Char) → List (String × String) →
    Except Unit (List (String × String))
  | [], cams => .ok cams
  | l :: rest, cams =>
    if isCommentL (stripL l) then parseLinesL rest cams
    else
      match parseTok (splitWs (stripL l)) with
      | some (n, u) => parseLinesL rest (dictInsert cams (String.mk n) (String.mk u))
      | none => .error ()

/-- Load `cameras.config` from its list of lines. -/
def parseConfig (lines : List String) : Except Unit (List (String × String)) :=
  parseLinesL (lines.map String.toList) []

instance {ε α : Type} [DecidableEq ε] [DecidableEq α] : DecidableEq (Except ε α) :=
  fun a b =>
    match a, b with
    | .ok x, .ok y =>
      if h : x = y then isTrue (by rw [h]) else isFalse (fun hc => h (Except.ok.inj hc))
    | .error x, .error y =>
      if h : x = y then isTrue (by rw [h]) else isFalse (fun hc => h (Except.error.inj hc))
    | .ok _, .error _ => isFalse (fun hc => Except.noConfusion hc)
    | .error _, .ok _ => isFalse (fun hc => Except.noConfusion hc)

/-! ### Startup capability probe (`checkfor`, lines 174-188) -/

/-- Outcome of `checkfor(['ffmpeg', '-version'])`.  When the program is
absent, `subprocess.call` raises, the bare `except:` prints the message
template (unformatted, because `.format` is applied to the `None` returned
by `print`), and that `.format` call then raises `AttributeError`, which
escapes `checkfor` and `main`: the interpreter terminates with a non-zero
status before any worker is launched.  The `sys.exit(1)` line is dead
code, but the observable contract (report, then non-zero exit, zero
workers) is the same. -/
inductive CheckforResult
  | ok
  | reportedAndRaised
  deriving DecidableEq

def checkfor (programPresent : Bool) : CheckforResult :=
  if programPresent then .ok else .reportedAndRaised

/-- How far `main` (lines 190-216) gets before its worker-wait loop:
`fatal` = the process terminated with a non-zero status before launching
any worker (missing encoder, or config load raising); `launched cams` =
the config loaded as `cams` and one worker per camera plus the two
monitor workers were started. -/
inductive MainOutcome
  | fatal
  | launched (cams : List (String × String))
  deriving DecidableEq

def mainModel (ffmpegPresent : Bool) (lines : List String) : MainOutcome :=
  match checkfor ffmpegPresent with
  | .reportedAndRaised => .fatal
  | .ok =>
    match parseConfig lines with
    | .error _ => .fatal
    | .ok cams => .launched cams

/-! ### DiskReaper: `get_oldest_recording` (146-158) and
`monitor_disk_space` (160-172) -/

def digitVal (c : Char) : Nat := c.toNat - 48

/-- Read the 19-character group `\d{4}-\d{2}-\d{2}_\d{2}-\d{2}-\d{2}` of
the regex on line 147 into its six numeric fields; `none` if the shape
does not match. -/
def readTs : List Char → Option (Nat × Nat × Nat × Nat × Nat × Nat)
  | [y1, y2, y3, y4, p1, m1, m2, p2, d1, d2, p3, h1, h2, p4, i1, i2, p5, s1, s2] =>
    if y1.isDigit && y2.isDigit && y3.isDigit && y4.isDigit && p1 == '-' &&
       m1.isDigit && m2.isDigit && p2 == '-' && d1.isDigit && d2.isDigit &&
       p3 == '_' && h1.isDigit && h2.isDigit && p4 == '-' &&
       i1.isDigit && i2.isDigit && p5 == '-' && s1.isDigit && s2.isDigit then
      some (1000 * digitVal y1 + 100 * digitVal y2 + 10 * digitVal y3 + digitVal y4,
            10 * digitVal m1 + digitVal m2,
            10 * digitVal d1 + digitVal d2,
            10 * digitVal h1 + digitVal h2,
            10 * digitVal i1 + digitVal i2,
            10 * digitVal s1 + digitVal s2)
    else none
  | _ => none

def isLeap (y : Nat) : Bool := y % 4 == 0 && (y % 100 != 0 || y % 400 == 0)

def daysInMonth (y m : Nat) : Nat :=
  if m == 2 then (if isLeap y then 29 else 28)
  else if m == 4 || m == 6 || m == 9 || m == 11 then 30
  else 31

/-- Models `time.mktime(datetime.strptime(s, FILE_DATE_FORMAT).timetuple())`
(line 154): `none` models the `ValueError` raised on an out-of-range date
or time.  The returned key is a mixed-radix encoding that is strictly
monotone in the (year, month, day, hour, minute, second) tuple, hence
orders timestamps exactly as the epoch seconds returned by `mktime` in a
timezone without DST transitions; its value always stays far below the
sentinel `9999999999999` of line 149, as real epoch values do. -/
def mktimeKey (y mo d h mi s : Nat) : Option Nat :=
  if 1 ≤ y ∧ y ≤ 9999 ∧ 1 ≤ mo ∧ mo ≤ 12 ∧ 1 ≤ d ∧ d ≤ daysInMonth y mo ∧
     h ≤ 23 ∧ mi ≤ 59 ∧ s ≤ 59 then
    some (((((y * 12 + (mo - 1)) * 31 + (d - 1)) * 24 + h) * 60 + mi) * 60 + s)
  else none

/-- Parse the captured regex group with `strptime`/`mktime`. -/
def parseTs (t : List Char) : Option Nat :=
  match readTs t with
  | none => none
  | some (y, mo, d, h, mi, s) => mktimeKey y mo d h mi s

/-- Try to match the part of the regex `^.+_(\d{4}-\d{2}-\d{2}_\d{2}-\d{2}-\d{2}).mp4`
that follows the greedy `.+`, at the start of `l`: an underscore, the
19-character timestamp group, one arbitrary character (the unescaped `.`),
then `mp4`.  Returns the captured group. -/
def tailMatch (l : List Char) : Option (List Char) :=
  match l with
  | '_' :: rest =>
    if (readTs (rest.take 19)).isSome && decide (23 ≤ rest.length) &&
       ((rest.drop 20).take 3 == ['m', 'p', '4']) then
      some (rest.take 19)
    else none
  | _ => none

/-- Greedy backtracking of `.+`: try the longest head first, i.e. the
split positions from the right end of the string leftwards, never letting
the head be empty. -/
def searchGo (s : List Char) : Nat → Option (List Char)
  | 0 => none
  | k + 1 =>
    match tailMatch (s.drop (k + 1)) with
    | some t => some t
    | none => searchGo s k

/-- `group(1)` of `p.search(filename)` for the compiled regex of line 147
(`search` with a `^`-anchored pattern only matches at the start). -/
def searchGroup (s : List Char) : Option (List Char) := searchGo s s.length

/-- Suffix test on character lists. -/
def endsWithL (s suff : List Char) : Bool :=
  decide (suff.length ≤ s.length) && (s.drop (s.length - suff.length) == suff)

/-- `glob.glob('**/*.mp4')` (line 150) is called WITHOUT `recursive=True`,
so `**` behaves exactly like `*`: the pattern matches only non-hidden
files ending in `.mp4` that sit exactly one directory below the recording
root.  The filesystem is modelled as a list of relative file paths given
as component lists. -/
def globOk (p : List String) : Bool :=
  match p with
  | [d, f] =>
    !(d.toList == []) && !(d.toList.head? == some '.') &&
    !(f.toList.head? == some '.') && endsWithL f.toList ['.', 'm', 'p', '4']
  | _ => false

def joinPath : List String → String
  | [] => ""
  | [x] => x
  | x :: rest => x ++ "/" ++ joinPath rest

/-- The relative path strings produced by the glob call, in filesystem
enumeration order. -/
def globEntries (fs : List (List String)) : List String :=
  (fs.filter (fun p => globOk p)).map joinPath

/-- The selection loop of `get_oldest_recording` (lines 148-157):
`best`/`bts` carry `oldest_filename`/`oldest_timestamp`; `.error`
models the `ValueError` escaping from `strptime`/`mktime`. -/
def gorLoop : List String → Option String → Nat → Except Unit (Option String)
  | [], best, _ => .ok best
  | f :: rest, best, bts =>
    match searchGroup f.toList with
    | none => gorLoop rest best bts
    | some t =>
      match parseTs t with
      | none => .error ()
      | some ts => if ts < bts then gorLoop rest (some f) ts else gorLoop rest best bts

/-- `get_oldest_recording` (lines 146-158) over the modelled filesystem. -/
def get_oldest_recording (fs : List (List String)) : Except Unit (Option String) :=
  gorLoop (globEntries fs) none 9999999999999

def MIN_FREE_DISK_KB : Nat := 200000

/-- Result of one iteration of the `monitor_disk_space` loop:
`crash` = an exception escapes the loop body (not a `KeyboardInterrupt`,
so it propagates and the reaper worker process dies). -/
inductive TickResult
  | noop
  | deleted (f : String)
  | crash
  deriving DecidableEq

/-- One iteration of `monitor_disk_space` (lines 162-168), with the free
space reported by the external `df` probe passed in.  When the lookup
returns `None`, line 166 evaluates `'...' + None`, raising `TypeError`;
together with a possible `ValueError` from `strptime` this is the `crash`
case.  Otherwise exactly the selected file is removed. -/
def monitor_disk_space_tick (avail : Nat) (fs : List (List String)) : TickResult :=
  if avail < MIN_FREE_DISK_KB then
    match get_oldest_recording fs with
    | .error _ => .crash
    | .ok none => .crash
    | .ok (some f) => .deleted f
  else .noop

/-! ### FolderRoller: `monitor_folders` (129-144) -/

structure CalDate where
  year : Nat
  month : Nat
  day : Nat
  deriving DecidableEq

/-- `now + datetime.timedelta(days=1)`, restricted to the date part. -/
def nextDay (dt : CalDate) : CalDate :=
  if dt.day < daysInMonth dt.year dt.month then ⟨dt.year, dt.month, dt.day + 1⟩
  else if dt.month < 12 then ⟨dt.year, dt.month + 1, 1⟩
  else ⟨dt.year + 1, 1, 1⟩

def pad2 (n : Nat) : String := if n < 10 then "0" ++ toString n else toString n

def pad4 (n : Nat) : String :=
  if n < 10 then "000" ++ toString n
  else if n < 100 then "00" ++ toString n
  else if n < 1000 then "0" ++ toString n
  else toString n

/-- `now.strftime('%Y-%m-%d')` — the folder naming format (line 133,
identical to `FOLDER_DATE_FORMAT`). -/
def fmtDate (dt : CalDate) : String :=
  pad4 dt.year ++ "-" ++ pad2 dt.month ++ "-" ++ pad2 dt.day

/-- The local wall-clock reading `datetime.datetime.today()` as the model
sees it. -/
structure SimTime where
  date : CalDate
  hour : Nat
  minute : Nat

/-- `pathlib.Path(name).mkdir(parents=True, exist_ok=True)`: idempotent
directory creation over the set (kept as an ordered list) of existing
directories. -/
def mkdirP (dirs : List String) (name : String) : List String :=
  if name ∈ dirs then dirs else dirs ++ [name]

/-- One iteration of the `monitor_folders` loop (lines 132-139): always
create today's folder; if `now.hour == 23 and now.minute > 54`, also
create tomorrow's. -/
def monitor_folders_tick (now : SimTime) (dirs : List String) : List String :=
  if now.hour == 23 && decide (54 < now.minute) then
    mkdirP (mkdirP dirs (fmtDate now.date)) (fmtDate (nextDay now.date))
  else mkdirP dirs (fmtDate now.date)

/-! ### Supervisor: worker launch and restart loop (`main`, lines 207-245) -/

/-- Supervisor state: the `processes` dict mapping a process sentinel
(liveness token, modelled as a Nat) to the name string stored by `main`,
plus a counter generating fresh sentinels for restarted workers. -/
structure SupSt where
  procs : List (Nat × String)
  fresh : Nat
  deriving DecidableEq

def lookupTok : List (Nat × String) → Nat → Option String
  | [], _ => none
  | (k, v) :: rest, t => if k = t then some v else lookupTok rest t

def lookupName : List (String × String) → String → Option String
  | [], _ => none
  | (k, v) :: rest, n => if k = n then some v else lookupName rest n

/-- Python `del processes[sentinel]`. -/
def eraseTok : List (Nat × String) → Nat → List (Nat × String)
  | [], _ => []
  | (k, v) :: rest, t => if k = t then rest else (k, v) :: eraseTok rest t

/-- Startup registration (lines 207-216): the disk-space monitor, then the
folder monitor, then one recorder per camera in config order. -/
def initSup (cams : List (String × String)) : SupSt :=
  ⟨(0, "monitor_disk_space") :: (1, "monitor_folders") ::
    (cams.enum.map (fun e => (2 + e.1, e.2.1))), 2 + cams.length⟩

/-- What kind of worker a restart launched (the `target=` of the new
`multiprocessing.Process`). -/
inductive Launch
  | reaper
  | roller
  | camera (name url : String)
  deriving DecidableEq

/-- The body of the restart `for` loop (lines 223-240) for one exited
sentinel.  Note the source registers BOTH restarted monitor workers under
the name `'monitor'` (lines 228 and 233), not under their original names;
a later exit of such a worker therefore falls into the camera branch,
where `cameras[name]` (line 237) raises `KeyError` — modelled by `none`,
an exception that escapes the `except KeyboardInterrupt` and kills the
supervisor. -/
def supStep (cams : List (String × String)) (st : SupSt) (tok : Nat) :
    Option (SupSt × Launch) :=
  match lookupTok st.procs tok with
  | none => none
  | some label =>
    if label = "monitor_disk_space" then
      some (⟨eraseTok st.procs tok ++ [(st.fresh, "monitor")], st.fresh + 1⟩, .reaper)
    else if label = "monitor_folders" then
      some (⟨eraseTok st.procs tok ++ [(st.fresh, "monitor")], st.fresh + 1⟩, .roller)
    else
      match lookupName cams label with
      | none => none
      | some url =>
        some (⟨eraseTok st.procs tok ++ [(st.fresh, label)], st.fresh + 1⟩, .camera label url)

/-- Events delivered to the supervisor's wait loop: a worker-exit
notification from `multiprocessing.connection.wait` (sequentialised; the
inner `for` processes them one at a time), or the operator's
`KeyboardInterrupt`. -/
inductive Ev
  | exited (tok : Nat)
  | interrupt
  deriving DecidableEq

/-- How a run of the wait loop ended: still blocked in the loop
(`running`), the `except KeyboardInterrupt` path followed by the clean
return of `main` and process exit status 0 (`clean`), or an exception
such as `KeyError` escaping `main`, a non-zero process exit (`crashed`). -/
inductive Outcome
  | running
  | clean
  | crashed
  deriving DecidableEq

/-- The wait-and-restart loop (lines 218-245) over a list of delivered
events, returning the restarts it performed in order and how it ended. -/
def superviseRun (cams : List (String × String)) (st : SupSt) :
    List Ev → List Launch × Outcome
  | [] => ([], .running)
  | .interrupt :: _ => ([], .clean)
  | .exited t :: evs =>
    match supStep cams st t with
    | none => ([], .crashed)
    | some (st2, l) =>
      let r := superviseRun cams st2 evs
      (l :: r.1, r.2)

/-- Signals a worker can send to its ffmpeg child. -/
inductive Sig
  | sigint
  | sigterm
  | sigkill
  deriving DecidableEq

/-- `record_stream`'s `except KeyboardInterrupt` handler (lines 123-125):
forward SIGINT — a graceful interrupt, not a kill — to the child encoder
process. -/
def record_stream_on_interrupt (childPid : Nat) : Nat × Sig := (childPid, .sigint)

/-- `record_stream`'s SIGTERM handler (lines 83-85): likewise converts an
external termination request into SIGINT on the child. -/
def record_stream_on_sigterm (childPid : Nat) : Nat × Sig := (childPid, .sigint)

/-! ### Well-formed config lines, for stating the config-loading claims -/

/-- A rendered config line: a comment line (hash plus arbitrary rest) or a
camera line `name<space>url`. -/
inductive CfgLine
  | comment (rest : List Char)
  | cam (name url : List Char)

def renderLine : CfgLine → List Char
  | .comment r => '#' :: r
  | .cam n u => n ++ ' ' :: u

def camEntries : List CfgLine → List (String × String)
  | [] => []
  | .comment _ :: rest => camEntries rest
  | .cam n u :: rest => (String.mk n, String.mk u) :: camEntries rest

def camNames : List CfgLine → List String
  | [] => []
  | .comment _ :: rest => camNames rest
  | .cam n _ :: rest => String.mk n :: camNames rest

/-- A whitespace-free, non-empty token (what the spec requires of camera
names and URLs). -/
def isTokL (l : List Char) : Prop := l ≠ [] ∧ ∀ c ∈ l, isPySpace c = false

instance (l : List Char) : Decidable (isTokL l) := by
  unfold isTokL
  infer_instance

/-- Well-formedness of a config line: camera names and URLs are non-empty
whitespace-free tokens and the name does not begin with the comment
character. -/
def lineWF : CfgLine → Prop
  | .comment _ => True
  | .cam n u => isTokL n ∧ isTokL u ∧ n.head? ≠ some '#'

instance (ln : CfgLine) : Decidable (lineWF ln) :=
  match ln with
  | .comment _ => isTrue trivial
  | .cam _ _ => inferInstanceAs (Decidable (_ ∧ _ ∧ _))

/-! ### Helper lemmas about the parsing primitives -/

theorem dropWs_cons_of_nonws {c : Char} {t : List Char} (h : isPySpace c = false) :
    dropWs (c :: t) = c :: t := by
  simp [dropWs, h]

theorem dropWs_of_head (l : List Char)
    (h : ∀ a, l.head? = some a → isPySpace a = false) : dropWs l = l := by
  cases l with
  | nil => rfl
  | cons c t => simp [dropWs, h c rfl]

theorem dropWs_append_of_ws {w : List Char} (hw : ∀ x ∈ w, isPySpace x = true)
    (l : List Char) : dropWs (w ++ l) = dropWs l := by
  induction w with
  | nil => simp
  | cons c t ih =>
    have hc := hw c (by simp)
    simp only [List.cons_append, dropWs, hc, if_true]
    exact ih (fun x hx => hw x (by simp [hx])) 

theorem dropWs_append (x y : List Char) :
    dropWs (x ++ y) = if dropWs x = [] then dropWs y else dropWs x ++ y := by
  induction x with
  | nil => simp [dropWs]
  | cons c t ih =>
    by_cases hc : isPySpace c = true
    · simp [dropWs, hc, ih]
    · simp only [Bool.not_eq_true] at hc
      simp [dropWs, hc]

theorem stripL_eq_self {l : List Char}
    (h1 : ∀ a, l.head? = some a → isPySpace a = false)
    (h2 : ∀ a, l.getLast? = some a → isPySpace a = false) :
    stripL l = l := by
  unfold stripL
  rw [dropWs_of_head l h1, dropWs_of_head l.reverse
    (fun a ha => h2 a (by rwa [List.head?_reverse] at ha)), List.reverse_reverse]

theorem isCommentL_stripL_hash (w r : List Char)
    (hw : ∀ x ∈ w, isPySpace x = true) :
    isCommentL (stripL (w ++ '#' :: r)) = true := by
  unfold stripL
  rw [dropWs_append_of_ws hw, dropWs_cons_of_nonws (by decide), List.reverse_cons,
    dropWs_append r.reverse ['#']]
  by_cases h : dropWs r.reverse = []
  · rw [if_pos h]
    simp [dropWs, isCommentL, show isPySpace '#' = false from by decide]
  · simp [h, isCommentL]

theorem splitWsGo_token (n : List Char) (hn : ∀ c ∈ n, isPySpace c = false) :
    ∀ rest acc, splitWsGo (n ++ rest) acc = splitWsGo rest (n.reverse ++ acc) := by
  induction n with
  | nil => intro rest acc; simp
  | cons c t ih =>
    intro rest acc
    have hc := hn c (by simp)
    simp only [List.cons_append, splitWsGo, hc, Bool.false_eq_true, if_false,
      List.append_eq]
    rw [ih (fun x hx => hn x (by simp [hx])) rest (c :: acc)]
    simp

theorem splitWsGo_end (v : List Char) (hv : v ≠ [])
    (h : ∀ c ∈ v, isPySpace c = false) : splitWsGo v [] = [v] := by
  have ht := splitWsGo_token v h [] []
  rw [List.append_nil] at ht
  rw [ht]
  simp [splitWsGo, hv]

theorem splitWsGo_sep (tok rest : List Char) (ht : isTokL tok) :
    splitWsGo (tok ++ ' ' :: rest) [] = tok :: splitWsGo rest [] := by
  obtain ⟨hne, hnw⟩ := ht
  rw [splitWsGo_token tok hnw (' ' :: rest) [], List.append_nil]
  simp [splitWsGo, hne, show isPySpace ' ' = true from by decide]

theorem splitWs_two (n u : List Char) (hn : isTokL n) (hu : isTokL u) :
    splitWs (n ++ ' ' :: u) = [n, u] := by
  unfold splitWs
  rw [splitWsGo_sep n u hn, splitWsGo_end u hu.1 hu.2]

theorem splitWs_three (n u v : List Char) (hn : isTokL n) (hu : isTokL u)
    (hv : isTokL v) : splitWs (n ++ ' ' :: (u ++ ' ' :: v)) = [n, u, v] := by
  unfold splitWs
  rw [splitWsGo_sep n _ hn, splitWsGo_sep u _ hu, splitWsGo_end v hv.1 hv.2]

theorem getLast?_mem_list {l : List Char} {a : Char} (h : l.getLast? = some a) :
    a ∈ l := by
  obtain ⟨hne, rfl⟩ := List.mem_getLast?_eq_getLast (show a ∈ l.getLast? from h)
  exact List.getLast_mem hne

theorem stripL_token_line (n rest : List Char) (hn : isTokL n) (hne : rest ≠ [])
    (hlast : ∀ a, rest.getLast? = some a → isPySpace a = false) :
    stripL (n ++ ' ' :: rest) = n ++ ' ' :: rest := by
  apply stripL_eq_self
  · intro a ha
    cases hcons : n with
    | nil => exact absurd hcons hn.1
    | cons c t =>
      rw [hcons] at ha
      simp only [List.cons_append, List.head?_cons, Option.some.injEq] at ha
      exact ha ▸ hn.2 c (by simp [hcons])
  · intro a ha
    rw [show n ++ ' ' :: rest = (n ++ [' ']) ++ rest by simp] at ha
    rw [List.getLast?_append_of_ne_nil _ hne] at ha
    exact hlast a ha

theorem isCommentL_false_of_head {n : List Char} (rest : List Char)
    (hne : n ≠ []) (hhash : n.head? ≠ some '#') :
    isCommentL (n ++ rest) = false := by
  cases n with
  | nil => exact absurd rfl hne
  | cons c t =>
    simp only [List.head?_cons, ne_eq, Option.some.injEq] at hhash
    simp [isCommentL, hhash]

theorem dictInsert_fresh (cams : List (String × String)) (n u : String)
    (h : ∀ pr ∈ cams, pr.1 ≠ n) : dictInsert cams n u = cams ++ [(n, u)] := by
  induction cams with
  | nil => rfl
  | cons p t ih =>
    obtain ⟨k, v⟩ := p
    simp only [dictInsert]
    rw [if_neg (h (k, v) (by simp))]
    rw [ih (fun q hq => h q (by simp [hq]))]
    simp

theorem parseLinesL_cam (n u : List Char) (rest : List (List Char))
    (cams : List (String × String)) (hn : isTokL n) (hu : isTokL u)
    (hhash : n.head? ≠ some '#') :
    parseLinesL ((n ++ ' ' :: u) :: rest) cams =
      parseLinesL rest (dictInsert cams (String.mk n) (String.mk u)) := by
  have hstrip : stripL (n ++ ' ' :: u) = n ++ ' ' :: u :=
    stripL_token_line n u hn hu.1
      (fun a ha => hu.2 a (getLast?_mem_list ha))
  simp only [parseLinesL, hstrip, isCommentL_false_of_head (' ' :: u) hn.1 hhash,
    Bool.false_eq_true, if_false, splitWs_two n u hn hu, parseTok]

theorem parseLinesL_comment (w r : List Char) (rest : List (List Char))
    (cams : List (String × String)) (hw : ∀ x ∈ w, isPySpace x = true) :
    parseLinesL ((w ++ '#' :: r) :: rest) cams = parseLinesL rest cams := by
  simp only [parseLinesL, isCommentL_stripL_hash w r hw, if_true]

theorem gorLoop_no_match (l : List String) (best : Option String) (bts : Nat)
    (h : ∀ f ∈ l, searchGroup f.toList = none) : gorLoop l best bts = .ok best := by
  induction l generalizing best bts with
  | nil => rfl
  | cons f t ih =>
    simp only [gorLoop, h f (by simp)]
    exact ih _ _ (fun g hg => h g (by simp [hg]))

theorem gorLoop_sel (l : List String) :
    ∀ best bts f, gorLoop l best bts = .ok (some f) →
      best = some f ∨ searchGroup f.toList ≠ none := by
  induction l with
  | nil =>
    intro best bts f h
    simp only [gorLoop, Except.ok.injEq] at h
    exact Or.inl h
  | cons g t ih =>
    intro best bts f h
    cases hs : searchGroup g.toList with
    | none =>
      simp only [gorLoop, hs] at h
      exact ih best bts f h
    | some tg =>
      simp only [gorLoop, hs] at h
      cases hp : parseTs tg with
      | none =>
        simp only [hp] at h
        exact Except.noConfusion h
      | some ts =>
        simp only [hp] at h
        by_cases hlt : ts < bts
        · rw [if_pos hlt] at h
          rcases ih _ _ f h with h1 | h2
          · right
            rw [show g = f from Option.some.inj h1] at hs
            intro hc
            rw [hs] at hc
            exact Option.noConfusion hc
          · exact Or.inr h2
        · rw [if_neg hlt] at h
          exact ih _ _ f h

theorem parseLinesL_comment0 (r : List Char) (rest : List (List Char))
    (cams : List (String × String)) :
    parseLinesL (('#' :: r) :: rest) cams = parseLinesL rest cams := by
  have h := isCommentL_stripL_hash [] r (by simp)
  rw [List.nil_append] at h
  simp only [parseLinesL, h, if_true]

theorem parseLinesL_spec (specs : List CfgLine) :
    ∀ cams : List (String × String),
      (∀ ln ∈ specs, lineWF ln) →
      (∀ nm ∈ camNames specs, ∀ pr ∈ cams, pr.1 ≠ nm) →
      (camNames specs).Nodup →
      parseLinesL (specs.map renderLine) cams = .ok (cams ++ camEntries specs) := by
  induction specs with
  | nil =>
    intro cams _ _ _
    simp [parseLinesL, camEntries]
  | cons ln rest ih =>
    intro cams hwf hfresh hnd
    cases ln with
    | comment r =>
      simp only [List.map_cons, renderLine]
      rw [parseLinesL_comment0 r _ cams]
      simp only [camNames] at hfresh hnd
      simp only [camEntries]
      exact ih cams (fun l hl => hwf l (by simp [hl])) hfresh hnd
    | cam n u =>
      simp only [List.map_cons, renderLine]
      obtain ⟨hn, hu, hhash⟩ := hwf (.cam n u) (by simp)
      rw [parseLinesL_cam n u _ cams hn hu hhash]
      simp only [camNames] at hfresh hnd
      have hfresh1 : ∀ pr ∈ cams, pr.1 ≠ String.mk n := hfresh _ (by simp)
      rw [dictInsert_fresh cams _ _ hfresh1]
      have hnotin : String.mk n ∉ camNames rest := (List.nodup_cons.mp hnd).1
      have hrec := ih (cams ++ [(String.mk n, String.mk u)])
        (fun l hl => hwf l (by simp [hl]))
        (fun nm hnm pr hpr => by
          rcases List.mem_append.mp hpr with hc | hone
          · exact hfresh nm (List.mem_cons_of_mem _ hnm) pr hc
          · have hpr2 : pr = (String.mk n, String.mk u) := by simpa using hone
            rw [hpr2]
            intro hEq
            rw [← hEq] at hnm
            exact hnotin hnm)
        (List.nodup_cons.mp hnd).2
      rw [hrec]
      simp [camEntries]

theorem camEntries_length (specs : List CfgLine) :
    (camEntries specs).length = (camNames specs).length := by
  induction specs with
  | nil => rfl
  | cons ln rest ih =>
    cases ln with
    | comment r => simpa [camEntries, camNames] using ih
    | cam n u => simpa [camEntries, camNames] using ih

theorem initSup_length (cams : List (String × String)) :
    (initSup cams).procs.length = cams.length + 2 := by
  simp [initSup]

theorem mem_mkdirP (dirs : List String) (name : String) : name ∈ mkdirP dirs name := by
  unfold mkdirP
  by_cases h : name ∈ dirs
  · simp [h]
  · simp [h]

theorem mem_mkdirP_mono {dirs : List String} {x : String} (h : x ∈ dirs)
    (name : String) : x ∈ mkdirP dirs name := by
  unfold mkdirP
  by_cases hm : name ∈ dirs <;> simp [hm, h]

theorem mkdirP_of_mem {dirs : List String} {name : String} (h : name ∈ dirs) :
    mkdirP dirs name = dirs := by
  simp [mkdirP, h]

/-! ### Claim theorems -/

/-- Claim C1 (code-bug evaluation): with config `cam1 url1`, the disk-reaper
worker (startup token 0) exits and is restarted — correctly as a reaper, but
re-registered under the name `monitor` instead of `monitor_disk_space` (source
line 228).  When the restarted reaper (token 3) exits in turn, the supervisor
falls into the camera branch, `cameras['monitor']` raises `KeyError`, and the
supervisor itself crashes with a non-zero exit — contradicting the claim that
restarts of the same WorkerKind continue indefinitely without the supervisor
failing. -/
theorem claim_c1_supervisor_restart :
    superviseRun [("cam1", "url1")] (initSup [("cam1", "url1")])
      [Ev.exited 0, Ev.exited 3] = ([Launch.reaper], Outcome.crashed) := by
  decide

/-- Claim C2 counterexample: a config whose two lines carry the same camera
name is NOT fatal at startup: the load succeeds (the later URL silently
overwrites the earlier one in the dict) and `main` proceeds to launch
workers — contradicting "the process exits non-zero and zero workers are
launched". -/
theorem claim_c2_counterexample :
    parseConfig ["cam1 url1", "cam1 url2"] = .ok [("cam1", "url2")] ∧
    mainModel true ["cam1 url1", "cam1 url2"] = .launched [("cam1", "url2")] := by
  constructor <;> decide

/-- Claim C2 amended: for every camera name and pair of URLs (well-formed
whitespace-free tokens), a config repeating the name on two lines loads
without error into a single entry whose URL is the one of the LAST line, and
the process proceeds to launch workers normally. -/
theorem claim_c2_amended (n u1 u2 : List Char) (hn : isTokL n) (hu1 : isTokL u1)
    (hu2 : isTokL u2) (hhash : n.head? ≠ some '#') :
    parseConfig [String.mk (n ++ ' ' :: u1), String.mk (n ++ ' ' :: u2)] =
      .ok [(String.mk n, String.mk u2)] ∧
    mainModel true [String.mk (n ++ ' ' :: u1), String.mk (n ++ ' ' :: u2)] =
      .launched [(String.mk n, String.mk u2)] := by
  have hp : parseConfig [String.mk (n ++ ' ' :: u1), String.mk (n ++ ' ' :: u2)] =
      .ok [(String.mk n, String.mk u2)] := by
    show parseLinesL [n ++ ' ' :: u1, n ++ ' ' :: u2] [] =
      .ok [(String.mk n, String.mk u2)]
    rw [parseLinesL_cam n u1 _ [] hn hu1 hhash]
    rw [parseLinesL_cam n u2 _ _ hn hu2 hhash]
    simp [dictInsert, parseLinesL]
  refine ⟨hp, ?_⟩
  show (match parseConfig [String.mk (n ++ ' ' :: u1), String.mk (n ++ ' ' :: u2)] with
    | .error _ => MainOutcome.fatal
    | .ok cams => MainOutcome.launched cams) = _
  rw [hp]

/-- Claim C2 amended, concrete witness: duplicate name `cam`, the second URL
wins and workers launch. -/
theorem claim_c2_witness :
    parseConfig ["cam http-one", "cam http-two"] = .ok [("cam", "http-two")] ∧
    mainModel true ["cam http-one", "cam http-two"] =
      .launched [("cam", "http-two")] :=
  claim_c2_amended "cam".toList "http-one".toList "http-two".toList
    (by decide) (by decide) (by decide) (by decide)

/-- Claim C3 counterexample: on a tick with free space below the threshold and
no file matching the recording-filename pattern, the reaper does not
report-and-skip — line 166 concatenates `None` into the log string, raising an
uncaught `TypeError` that crashes the reaper worker. -/
theorem claim_c3_counterexample :
    monitor_disk_space_tick 100000 [["2024-01-01", "x.mp4"]] = .crash := by
  decide

/-- Claim C3 amended: whenever the reported free space is below
MIN_FREE_DISK_KB and no globbed file matches the timestamp pattern, no file is
deleted, but instead of reporting the anomaly and skipping the tick the reaper
worker crashes with an uncaught TypeError (the supervisor then sees an exited
worker and restarts it; the whole process survives). -/
theorem claim_c3_amended (avail : Nat) (fs : List (List String))
    (hlow : avail < MIN_FREE_DISK_KB)
    (hnone : ∀ f ∈ globEntries fs, searchGroup f.toList = none) :
    monitor_disk_space_tick avail fs = .crash := by
  unfold monitor_disk_space_tick
  rw [if_pos hlow]
  unfold get_oldest_recording
  rw [gorLoop_no_match _ _ _ hnone]

/-- Claim C3 amended, concrete witness. -/
theorem claim_c3_witness :
    monitor_disk_space_tick 0 [["d", "y.mp4"]] = .crash :=
  claim_c3_amended 0 [["d", "y.mp4"]] (by decide) (by decide)

/-- Claim C4 (code-bug evaluation): at the spec's own example file set — flat
files directly under the recording root — the glob call (missing
`recursive=True`, so `**` degrades to `*`) finds nothing: no file is selected
and nothing is deleted (the tick then crashes on the `None`), instead of the
oldest file `b_2024-01-01_08-00-00.mp4` being deleted.  The same three files
placed one directory down ARE scanned, and then exactly the globally oldest
one is deleted — confirming that only the scan depth, not the selection
logic, is at fault. -/
theorem claim_c4_glob_depth :
    get_oldest_recording [["a_2024-01-01_10-00-00.mp4"],
        ["a_2024-01-02_09-00-00.mp4"], ["b_2024-01-01_08-00-00.mp4"]] =
      .ok none ∧
    monitor_disk_space_tick 100000 [["a_2024-01-01_10-00-00.mp4"],
        ["a_2024-01-02_09-00-00.mp4"], ["b_2024-01-01_08-00-00.mp4"]] =
      .crash ∧
    monitor_disk_space_tick 100000 [["2024-01-01", "a_2024-01-01_10-00-00.mp4"],
        ["2024-01-01", "a_2024-01-02_09-00-00.mp4"],
        ["2024-01-01", "b_2024-01-01_08-00-00.mp4"]] =
      .deleted "2024-01-01/b_2024-01-01_08-00-00.mp4" :=
  ⟨by decide, by decide, by decide⟩

/-- Claim C5: once the operator interrupt is delivered to the wait loop, the
supervisor performs no further restarts (events after the interrupt are never
processed), takes the `except KeyboardInterrupt` path and exits cleanly with
status 0, never re-raising; and each recorder worker's interrupt handlers
(KeyboardInterrupt and SIGTERM alike) convert the shutdown into a graceful
SIGINT — not a kill — on its encoder child, so the shutdown propagating to the
workers (all of which receive the terminal interrupt as members of the
foreground process group) is graceful. -/
theorem claim_c5_interrupt :
    (∀ (cams : List (String × String)) (st : SupSt) (pre post : List Ev),
      (superviseRun cams st pre).2 = .running →
      superviseRun cams st (pre ++ Ev.interrupt :: post) =
        ((superviseRun cams st pre).1, .clean)) ∧
    (∀ pid, record_stream_on_interrupt pid = (pid, Sig.sigint) ∧
      record_stream_on_sigterm pid = (pid, Sig.sigint)) := by
  constructor
  · intro cams st pre post h
    induction pre generalizing st with
    | nil => simp [superviseRun]
    | cons e t ih =>
      cases e with
      | interrupt =>
        simp only [superviseRun] at h
        exact Outcome.noConfusion h
      | exited tk =>
        cases hstep : supStep cams st tk with
        | none =>
          simp only [superviseRun, hstep] at h
          exact Outcome.noConfusion h
        | some pr =>
          obtain ⟨st2, l⟩ := pr
          simp only [superviseRun, hstep] at h
          simp only [List.cons_append, superviseRun, hstep, List.append_eq]
          rw [ih st2 h]
  · intro pid
    exact ⟨rfl, rfl⟩

/-- Claim C5, concrete witness: one camera exit is restarted before the
interrupt; the exit event delivered after the interrupt causes no restart, and
the run ends clean. -/
theorem claim_c5_witness :
    superviseRun [("cam1", "u1")] (initSup [("cam1", "u1")])
      ([Ev.exited 2] ++ Ev.interrupt :: [Ev.exited 0]) =
      ([Launch.camera "cam1" "u1"], Outcome.clean) := by
  have h := claim_c5_interrupt.1 [("cam1", "u1")] (initSup [("cam1", "u1")])
    [Ev.exited 2] [Ev.exited 0] (by decide)
  rw [h]
  decide

/-- Claim C6: when the encoder tool is absent, the capability probe takes its
failure path (the message is printed, then the `AttributeError` from the
`.format`-on-`None` slip terminates the interpreter) and `main` ends with a
non-zero status before launching any worker, whatever the config contents. -/
theorem claim_c6_missing_encoder :
    checkfor false = CheckforResult.reportedAndRaised ∧
    ∀ lines : List String, mainModel false lines = MainOutcome.fatal :=
  ⟨rfl, fun _ => rfl⟩

/-- Claim C7 counterexample: a blank line is NOT ignored: after stripping it is
empty, it is not a comment, and `line.split()` yields zero tokens, so the
tuple unpack raises and the whole load fails — contradicting "every blank line
is ignored without error". -/
theorem claim_c7_counterexample :
    parseConfig ["cam1 url1", "", "cam2 url2"] = .error () ∧
    mainModel true ["cam1 url1", "", "cam2 url2"] = .fatal := by
  constructor <;> decide

/-- Claim C7 amended: comment lines are ignored, but blank lines are not (they
fail the load like any line without exactly two tokens); for every config made
of comment lines and well-formed camera lines with N distinct names, the load
yields exactly the N camera entries in order, and the supervisor registers
N + 2 workers (one per camera plus the two fixed monitors). -/
theorem claim_c7_amended (specs : List CfgLine) (hwf : ∀ ln ∈ specs, lineWF ln)
    (hnd : (camNames specs).Nodup) :
    parseConfig (specs.map (fun ln => String.mk (renderLine ln))) =
      .ok (camEntries specs) ∧
    (camEntries specs).length = (camNames specs).length ∧
    (initSup (camEntries specs)).procs.length = (camNames specs).length + 2 := by
  refine ⟨?_, camEntries_length specs, ?_⟩
  · have h := parseLinesL_spec specs [] hwf
      (fun nm _ pr hpr => absurd hpr (List.not_mem_nil pr)) hnd
    have h2 : parseLinesL
        ((specs.map fun ln => String.mk (renderLine ln)).map String.toList) [] =
        parseLinesL (specs.map renderLine) [] := by
      rw [List.map_map]
      rfl
    rw [parseConfig, h2, h, List.nil_append]
  · rw [initSup_length, camEntries_length]

/-- Claim C7 amended, concrete witness: two camera lines around a comment line
load to exactly those two entries. -/
theorem claim_c7_witness :
    parseConfig ["alpha url1", "#note", "beta url2"] =
      .ok [("alpha", "url1"), ("beta", "url2")] :=
  (claim_c7_amended
    [CfgLine.cam "alpha".toList "url1".toList, CfgLine.comment "note".toList,
     CfgLine.cam "beta".toList "url2".toList] (by decide) (by decide)).1

/-- Claim C8: every FolderRoller tick creates (idempotently) today's
directory; a tick at 23:55 — inside the `hour == 23 and minute > 54` window,
the last five minutes before midnight — additionally creates tomorrow's
directory, so after one such tick both day D's and day D+1's directories
exist; and repeating a tick changes nothing (idempotent create). -/
theorem claim_c8_folder_roller :
    (∀ (now : SimTime) (dirs : List String),
      fmtDate now.date ∈ monitor_folders_tick now dirs) ∧
    (∀ (dt : CalDate) (dirs : List String),
      fmtDate dt ∈ monitor_folders_tick ⟨dt, 23, 55⟩ dirs ∧
      fmtDate (nextDay dt) ∈ monitor_folders_tick ⟨dt, 23, 55⟩ dirs) ∧
    (∀ (now : SimTime) (dirs : List String),
      monitor_folders_tick now (monitor_folders_tick now dirs) =
        monitor_folders_tick now dirs) := by
  refine ⟨?_, ?_, ?_⟩
  · intro now dirs
    unfold monitor_folders_tick
    by_cases h : (now.hour == 23 && decide (54 < now.minute)) = true
    · rw [if_pos h]
      exact mem_mkdirP_mono (mem_mkdirP dirs _) _
    · rw [if_neg h]
      exact mem_mkdirP dirs _
  · intro dt dirs
    constructor
    · exact mem_mkdirP_mono (mem_mkdirP dirs (fmtDate dt)) (fmtDate (nextDay dt))
    · exact mem_mkdirP (mkdirP dirs (fmtDate dt)) (fmtDate (nextDay dt))
  · intro now dirs
    unfold monitor_folders_tick
    by_cases h : (now.hour == 23 && decide (54 < now.minute)) = true
    · rw [if_pos h, if_pos h]
      rw [mkdirP_of_mem (mem_mkdirP_mono (mem_mkdirP dirs _) _)]
      rw [mkdirP_of_mem (mem_mkdirP _ _)]
    · rw [if_neg h, if_neg h]
      exact mkdirP_of_mem (mem_mkdirP dirs _)

/-- Claim C9: `get_oldest_recording` is total at its interface: when no
globbed file matches the timestamp-embedding pattern it returns None instead
of raising, and a candidate filename that does not match the pattern is
skipped — it is never the selected deletion target. -/
theorem claim_c9_oldest_total (fs : List (List String)) :
    ((∀ f ∈ globEntries fs, searchGroup f.toList = none) →
      get_oldest_recording fs = .ok none) ∧
    (∀ f : String, searchGroup f.toList = none →
      get_oldest_recording fs ≠ .ok (some f)) := by
  constructor
  · intro h
    unfold get_oldest_recording
    exact gorLoop_no_match _ _ _ h
  · intro f hf hcontra
    unfold get_oldest_recording at hcontra
    rcases gorLoop_sel _ _ _ _ hcontra with h1 | h2
    · exact Option.noConfusion h1
    · exact h2 hf

/-- Claim C9, concrete witness: an unmatched mp4 one level down yields None,
and an unmatched name is never the selected target. -/
theorem claim_c9_witness :
    get_oldest_recording [["d", "x.mp4"]] = .ok none ∧
    get_oldest_recording [["d", "x.mp4"]] ≠ .ok (some "d/q.mp4") :=
  ⟨(claim_c9_oldest_total [["d", "x.mp4"]]).1 (by decide),
   (claim_c9_oldest_total [["d", "x.mp4"]]).2 "d/q.mp4" (by decide)⟩

/-- Claim C10: comment detection works on the whitespace-stripped line: a line
whose first non-whitespace character is the hash is ignored even with leading
whitespace, while a hash token after the two tokens of a camera line is not a
trailing comment — the line then has more than two tokens and the load
fails. -/
theorem claim_c10_comment_handling (w n u c : List Char)
    (hw : ∀ x ∈ w, isPySpace x = true) (hn : isTokL n)
    (hhash : n.head? ≠ some '#') (hu : isTokL u)
    (hc : ∀ x ∈ c, isPySpace x = false) :
    parseConfig [String.mk (w ++ '#' :: c)] = .ok [] ∧
    parseConfig [String.mk (n ++ ' ' :: (u ++ ' ' :: '#' :: c))] = .error () := by
  constructor
  · show parseLinesL [w ++ '#' :: c] [] = .ok []
    simp only [parseLinesL, isCommentL_stripL_hash w c hw, if_true]
  · show parseLinesL [n ++ ' ' :: (u ++ ' ' :: '#' :: c)] [] = .error ()
    have htok : isTokL ('#' :: c) := by
      refine ⟨by simp, ?_⟩
      intro x hx
      rcases List.mem_cons.mp hx with h1 | h2
      · rw [h1]; decide
      · exact hc x h2
    have hstrip := stripL_token_line n (u ++ ' ' :: '#' :: c) hn (by simp)
      (fun a ha => by
        rw [show u ++ ' ' :: '#' :: c = (u ++ [' ']) ++ '#' :: c by simp] at ha
        rw [List.getLast?_append_of_ne_nil _ (by simp)] at ha
        exact htok.2 a (getLast?_mem_list ha))
    simp only [parseLinesL, hstrip, isCommentL_false_of_head _ hn.1 hhash,
      Bool.false_eq_true, if_false]
    rw [splitWs_three n u ('#' :: c) hn hu htok]
    rfl

/-- Claim C10, concrete witness: a leading-whitespace comment line is ignored;
a camera line with a trailing hash comment fails the load. -/
theorem claim_c10_witness :
    parseConfig ["  #note"] = .ok [] ∧
    parseConfig ["camx urly #note"] = .error () :=
  claim_c10_comment_handling [' ', ' '] "camx".toList "urly".toList "note".toList
    (by decide) (by decide) (by decide) (by decide) (by decide)
